import Mathlib

/-!
Verification of the FilterX expression-evaluator excerpt of axosyslog.

The definitions below are shallow embeddings of the C sources:

* `src/lib/filterx/expr-compound.c`      — compound (sequence) expressions
* `src/lib/filterx/func-str.c`           — startswith / endswith / includes
* `src/lib/filterx/expr-regexp-search.c` — regexp_search match storing
* `src/lib/filterx/filterx-expr.c`       — unary/binary op lifecycle
* `src/lib/filterx/expr-literal-generator.c` — literal generator lifecycle
* `src/lib/transport/transport-tls.c`    — TLS transport read/write
* `src/unnamed/part_000` (filterx-variable.h) — variable model

Machine integers are modelled as `Nat`/`Int`; C `NULL` results are `Option`;
reference counting is modelled only where a claim depends on it (the
`released` flag of compound results).  External collaborators (the object
layer's `truthy`/`repr` capabilities, glib's `g_utf8_casefold`, OpenSSL's
result codes) are modelled as explicit data or function parameters, noted
at each definition.
-/

namespace Axosyslog

/-- Modelled from the spec: the polymorphic FilterX value universe (§3
FilterXObject).  Only the primitives and containers the claims touch are
included; the implementation files (object-primitive.c, object-string.c,
object-list.c) are not part of the provided sources.  Strings are byte
lists. -/
inductive FxObject where
  | boolean (b : Bool)
  | int (n : Int)
  | str (bytes : List Nat)
  | list (elems : List FxObject)

mutual

/-- Decidable equality on `FxObject`, spelled out because `deriving
DecidableEq` does not support the nested `List`. -/
def FxObject.decEq : (a b : FxObject) → Decidable (a = b)
  | .boolean a, .boolean b =>
    if h : a = b then .isTrue (by rw [h])
    else .isFalse (fun hc => h (by injection hc))
  | .int a, .int b =>
    if h : a = b then .isTrue (by rw [h])
    else .isFalse (fun hc => h (by injection hc))
  | .str a, .str b =>
    if h : a = b then .isTrue (by rw [h])
    else .isFalse (fun hc => h (by injection hc))
  | .list as, .list bs =>
    match FxObject.decEqList as bs with
    | .isTrue h => .isTrue (by rw [h])
    | .isFalse h => .isFalse (fun hc => h (by injection hc))
  | .boolean _, .int _ => .isFalse (fun hc => FxObject.noConfusion hc)
  | .boolean _, .str _ => .isFalse (fun hc => FxObject.noConfusion hc)
  | .boolean _, .list _ => .isFalse (fun hc => FxObject.noConfusion hc)
  | .int _, .boolean _ => .isFalse (fun hc => FxObject.noConfusion hc)
  | .int _, .str _ => .isFalse (fun hc => FxObject.noConfusion hc)
  | .int _, .list _ => .isFalse (fun hc => FxObject.noConfusion hc)
  | .str _, .boolean _ => .isFalse (fun hc => FxObject.noConfusion hc)
  | .str _, .int _ => .isFalse (fun hc => FxObject.noConfusion hc)
  | .str _, .list _ => .isFalse (fun hc => FxObject.noConfusion hc)
  | .list _, .boolean _ => .isFalse (fun hc => FxObject.noConfusion hc)
  | .list _, .int _ => .isFalse (fun hc => FxObject.noConfusion hc)
  | .list _, .str _ => .isFalse (fun hc => FxObject.noConfusion hc)

/-- Element-wise decidable equality on lists of `FxObject`. -/
def FxObject.decEqList : (as bs : List FxObject) → Decidable (as = bs)
  | [], [] => .isTrue rfl
  | a :: as, b :: bs =>
    match FxObject.decEq a b with
    | .isTrue h1 =>
      match FxObject.decEqList as bs with
      | .isTrue h2 => .isTrue (by rw [h1, h2])
      | .isFalse h2 => .isFalse (fun hc => h2 (by injection hc))
    | .isFalse h1 => .isFalse (fun hc => h1 (by injection hc))
  | [], _ :: _ => .isFalse (fun hc => List.noConfusion hc)
  | _ :: _, [] => .isFalse (fun hc => List.noConfusion hc)

end

instance : DecidableEq FxObject := FxObject.decEq

/-- Modelled from the spec: the `truthy` capability of the object layer
(booleans by value, numbers by non-zeroness, strings/containers by
non-emptiness).  The compound-expression claims only use truthiness of a
child's result as a hypothesis, so their validity does not depend on the
details of this table. -/
def fxTruthy : FxObject → Bool
  | .boolean b => b
  | .int n => n != 0
  | .str s => !s.isEmpty
  | .list l => !l.isEmpty

/-- `FilterXEvalContext.eval_control_modifier` (filterx-eval.h): `FXC_NONE`,
`FXC_DROP`, `FXC_DONE`. -/
inductive FxModifier where
  | fxcNone
  | fxcDrop
  | fxcDone
deriving DecidableEq

/-- An entry of the evaluation context's error stack, as pushed by
`filterx_eval_push_error(msg, expr, obj)`: the static message plus the
offending object. -/
structure FxError where
  message : String
  obj : Option FxObject
deriving DecidableEq

/-- The parts of `FilterXEvalContext` the compound-expression claims
observe: the control modifier and the error stack (pushes append at the
end of the list). -/
structure EvalState where
  modifier : FxModifier
  errors : List FxError
deriving DecidableEq

/-- The evaluation behaviour of one child expression of a compound
(expr-compound.c): its `ignore_falsy_result` flag, the control modifier its
`eval` installs into the context (if any), the error messages its own
`eval` pushes, and the object it returns (`none` = C NULL, i.e. the child
failed). -/
structure ChildSpec where
  ignore_falsy_result : Bool
  modifier : Option FxModifier
  errors : List String
  result : Option FxObject
deriving DecidableEq

/-- Effect of running one child's `filterx_expr_eval` on the context:
install the modifier (if the child sets one) and push the child's own
errors. -/
def childApply (c : ChildSpec) (st : EvalState) : EvalState :=
  { modifier := c.modifier.getD st.modifier,
    errors := st.errors ++ c.errors.map (fun m => ⟨m, none⟩) }

/-- The success test of `_eval_expr` (expr-compound.c:52):
`expr->ignore_falsy_result || filterx_object_truthy(res)`. -/
def evalExprSuccess (c : ChildSpec) (v : FxObject) : Bool :=
  c.ignore_falsy_result || fxTruthy v

/-- Outcome of `_eval_exprs` (expr-compound.c:84-107): whether the list ran
through, the final value of `*result`, whether the reference held in
`*result` was already dropped (`filterx_object_unref(*result)` at the top
of the loop body does not reset the pointer), the final context state, and
the indices of the children whose `eval` was invoked, in order. -/
structure ExprsOutcome where
  ranThrough : Bool
  result : Option FxObject
  released : Bool
  st : EvalState
  evaluated : List Nat
deriving DecidableEq

/-- Loop body of `_eval_exprs` (expr-compound.c:91-104).  Per iteration:
unref `*result` (tracked by `released`; the pointer itself is kept), check
the control modifier and short-circuit on DROP/DONE, then run `_eval_expr`
on the next child: a NULL child result aborts with FALSE, a falsy result
without `ignore_falsy_result` aborts with FALSE keeping the falsy object in
`*result`, otherwise continue with the fresh (owned) result. -/
def evalExprsGo :
    List ChildSpec → Nat → Option FxObject → Bool → EvalState → List Nat → ExprsOutcome
  | [], _, result, released, st, ev => ⟨true, result, released, st, ev⟩
  | c :: rest, i, result, _, st, ev =>
    let released := result.isSome
    if st.modifier = .fxcDrop ∨ st.modifier = .fxcDone then
      ⟨true, result, released, st, ev⟩
    else
      let st' := childApply c st
      let ev' := ev ++ [i]
      match c.result with
      | none => ⟨false, none, false, st', ev'⟩
      | some v =>
        if evalExprSuccess c v then
          evalExprsGo rest (i + 1) (some v) false st' ev'
        else
          ⟨false, some v, false, st', ev'⟩

/-- `_eval_exprs` entered with `*result = NULL` (expr-compound.c:89). -/
def evalExprs (children : List ChildSpec) (st : EvalState) : ExprsOutcome :=
  evalExprsGo children 0 none false st []

/-- The error message of expr-compound.c:119. -/
def bailMsg : String := "bailing out due to a falsy expr"

/-- Outcome of `_eval_compound`: the returned object (`none` = NULL),
whether the reference backing the returned object had already been dropped
inside `_eval_exprs` (a use-after-free if true), the final context state
and the evaluated child indices. -/
structure CompoundOutcome where
  result : Option FxObject
  resultReleased : Bool
  st : EvalState
  evaluated : List Nat
deriving DecidableEq

/-- `_eval_compound` (expr-compound.c:109-137).  On a FALSE return from
`_eval_exprs`: if `*result` is non-NULL, push the "bailing out" error with
the falsy object and return NULL; a NULL `*result` (a child's eval failed)
returns NULL without pushing anything.  On TRUE: if there is no last result
or `return_value_of_last_expr` is unset, return a fresh boolean TRUE,
otherwise return `*result` as-is — including, on the DROP/DONE path, the
already-unref'd pointer. -/
def evalCompound (return_value_of_last_expr : Bool) (children : List ChildSpec)
    (st : EvalState) : CompoundOutcome :=
  let o := evalExprs children st
  if o.ranThrough then
    match o.result with
    | none => ⟨some (.boolean true), false, o.st, o.evaluated⟩
    | some v =>
      if return_value_of_last_expr then
        ⟨some v, o.released, o.st, o.evaluated⟩
      else
        ⟨some (.boolean true), false, o.st, o.evaluated⟩
  else
    match o.result with
    | none => ⟨none, false, o.st, o.evaluated⟩
    | some v =>
      ⟨none, false, { o.st with errors := o.st.errors ++ [⟨bailMsg, some v⟩] }, o.evaluated⟩

/-! ## String affix functions: startswith / endswith / includes (func-str.c) -/

/-- Modelled from the spec: the `repr` capability (object-string.c,
object-primitive.c are not part of the provided sources).  A string renders
as its bytes, booleans as `true`/`false`, integers in decimal; rendering of
containers is not modelled (`none`), which the claims never rely on. -/
def fxRepr : FxObject → Option (List Nat)
  | .str s => some s
  | .boolean b => some ((if b then "true" else "false").toList.map Char.toNat)
  | .int n => some ((toString n).toList.map Char.toNat)
  | .list _ => none

/-- `G_MAXSSIZE` for a 64-bit platform. -/
def G_MAXSSIZE : Nat := 2 ^ 63 - 1

/-- `_do_casefold` (func-str.c:77-88).  It fails only when the length
exceeds `G_MAXSSIZE`; otherwise it replaces the buffer with
`g_utf8_casefold` of it.  glib's `g_utf8_casefold` is an external total
function (it never reports failure, not even for invalid UTF-8), so it is
passed in as the parameter `fold`. -/
def do_casefold (fold : List Nat → List Nat) (s : List Nat) : Option (List Nat) :=
  if s.length > G_MAXSSIZE then none else some (fold s)

/-- `_obj_format` = `_format_str_obj` (repr into a scratch buffer) followed
by the optional case fold (func-str.c:108-120).  `none` = C NULL. -/
def obj_format (fold : List Nat → List Nat) (ignore_case : Bool) (obj : FxObject) :
    Option (List Nat) :=
  match fxRepr obj with
  | none => none
  | some s => if ignore_case then do_casefold fold s else some s

/-- `_expr_format` (func-str.c:90-106): evaluate the expression (its result
is the `Option FxObject` argument; `none` = the eval failed), then format
the object. -/
def expr_format (fold : List Nat → List Nat) (ignore_case : Bool)
    (evalRes : Option FxObject) : Option (List Nat) :=
  match evalRes with
  | none => none
  | some obj => obj_format fold ignore_case obj

/-- `_function_startswith_process` (func-str.c:416-422): length guard, then
`memcmp(haystack, needle, needle_len) == 0`. -/
def function_startswith_process (haystack needle : List Nat) : Bool :=
  if needle.length > haystack.length then false
  else haystack.take needle.length == needle

/-- `_function_endswith_process` (func-str.c:431-437): length guard, then
`memcmp(haystack + haystack_len - needle_len, needle, needle_len) == 0`. -/
def function_endswith_process (haystack needle : List Nat) : Bool :=
  if needle.length > haystack.length then false
  else haystack.drop (haystack.length - needle.length) == needle

/-- glib's `g_strstr_len(haystack, haystack_len, needle)`: does `needle`
occur as a contiguous byte run of `haystack`?  (The C needle is
NUL-terminated; needles containing NUL bytes are not distinguished by this
model.) -/
def g_strstr_len (needle : List Nat) : List Nat → Bool
  | [] => needle == []
  | b :: t =>
    if (b :: t).take needle.length == needle then true
    else g_strstr_len needle t

/-- `_function_includes_process` (func-str.c:446-452): length guard, then
`g_strstr_len(haystack, haystack_len, needle) != NULL`. -/
def function_includes_process (haystack needle : List Nat) : Bool :=
  if needle.length > haystack.length then false
  else g_strstr_len needle haystack

/-- Which of the three affix functions a node was built as
(`_function_affix_new` with `_function_{startswith,endswith,includes}_process`). -/
inductive AffixKind where
  | startswith
  | endswith
  | includes
deriving DecidableEq

/-- The `process` function pointer of the affix node. -/
def affix_process : AffixKind → List Nat → List Nat → Bool
  | .startswith => function_startswith_process
  | .endswith => function_endswith_process
  | .includes => function_includes_process

/-- One needle expression as the affix node sees it: whether
`filterx_expr_is_literal` holds for it, and what `filterx_expr_eval` on it
yields (`none` = eval fails; literal expressions always yield their
object). -/
structure NeedleElem where
  isLiteral : Bool
  evalRes : Option FxObject
deriving DecidableEq

/-- The needle argument of an affix call: either a single expression, or a
literal list generator (`filterx_expr_is_literal_list_generator`) whose
elements are the given expressions. -/
inductive AffixNeedle where
  | single (e : NeedleElem)
  | listGen (elems : List NeedleElem)
deriving DecidableEq

/-- Evaluate or render a list of items in order, bailing out on the first
failure (the shape of every element loop in func-str.c). -/
def mapMOpt (f : α → Option β) : List α → Option (List β)
  | [] => some []
  | a :: rest =>
    match f a with
    | none => none
    | some b =>
      match mapMOpt f rest with
      | none => none
      | some bs => some (b :: bs)

/-- `filterx_expr_eval` on the needle expression: a literal list generator
materialises the list of its element results (failing if any element eval
fails); a single expression yields its own result. -/
def needleEval : AffixNeedle → Option FxObject
  | .single e => e.evalRes
  | .listGen elems => (mapMOpt (fun e => e.evalRes) elems).map .list

/-- `FilterXStringWithCache` (func-str.c:44-49): the needle expression
(represented by its literalness and eval result) and the `str_value`
cache slot (allocated zeroed, i.e. `none`). -/
structure StringWithCache where
  isLiteral : Bool
  evalRes : Option FxObject
  str_value : Option (List Nat)
deriving DecidableEq

/-- `_string_with_cache_fill_cache` (func-str.c:122-129): non-literal
expressions are accepted untouched; for a literal the rendered string is
computed (failure fails the call) but the result is only used as a success
test — `str_value` is never assigned. -/
def string_with_cache_fill_cache (fold : List Nat → List Nat) (ignore_case : Bool)
    (c : StringWithCache) : Option StringWithCache :=
  if !c.isLiteral then some c
  else
    match expr_format fold ignore_case c.evalRes with
    | none => none
    | some _ => some c

/-- `_string_with_cache_new` (func-str.c:131-141): `g_new0` (so `str_value`
starts as `none`) followed by `_string_with_cache_fill_cache`. -/
def string_with_cache_new (fold : List Nat → List Nat) (ignore_case : Bool)
    (e : NeedleElem) : Option StringWithCache :=
  string_with_cache_fill_cache fold ignore_case ⟨e.isLiteral, e.evalRes, none⟩

/-- `_string_with_cache_get_string_value` (func-str.c:143-161): use
`str_value` when present, otherwise re-run `_expr_format` on the needle
expression.  The second component counts how many needle-expression
evaluations this performed (0 from the cache, 1 through `_expr_format`). -/
def string_with_cache_get_string_value (fold : List Nat → List Nat)
    (ignore_case : Bool) (c : StringWithCache) : Option (List Nat × Nat) :=
  match c.str_value with
  | some s => some (s, 0)
  | none =>
    match expr_format fold ignore_case c.evalRes with
    | none => none
    | some s => some (s, 1)

/-- `_expr_affix_init_needle` (func-str.c:178-196): a literal needle gets a
single `FilterXStringWithCache` entry; a literal list generator gets one
entry per element (via `_cache_needle`); any other needle leaves
`cached_strings` empty.  `none` = init failure. -/
def affix_init_needle (fold : List Nat → List Nat) (ignore_case : Bool) :
    AffixNeedle → Option (List StringWithCache)
  | .single e =>
    if e.isLiteral then
      match string_with_cache_new fold ignore_case e with
      | none => none
      | some c => some [c]
    else some []
  | .listGen elems => mapMOpt (string_with_cache_new fold ignore_case) elems

/-- The affix expression node (`FilterXExprAffix`, func-str.c:53-64):
`ignore_case`, the haystack expression (represented by its eval result),
the needle expression, and the process function selector. -/
structure AffixExpr where
  ignore_case : Bool
  haystackRes : Option FxObject
  needle : AffixNeedle
  kind : AffixKind
deriving DecidableEq

/-- `_expr_affix_eval_needle` (func-str.c:207-254): evaluate the needle; a
string object yields a one-element needle list, a list object yields one
rendered needle per element — unless it is empty, which returns NULL; any
other type also returns NULL. -/
def expr_affix_eval_needle (fold : List Nat → List Nat) (ignore_case : Bool)
    (needle : AffixNeedle) : Option (List (List Nat)) :=
  match needleEval needle with
  | none => none
  | some (.str s) =>
    match obj_format fold ignore_case (.str s) with
    | none => none
    | some v => some [v]
  | some (.list elems) =>
    if elems.length = 0 then none
    else mapMOpt (obj_format fold ignore_case) elems
  | some _ => none

/-- The needle strings a call works through, derived from the needle's
evaluated object: a string renders to a single needle, a list to one
rendered needle per element.  This is the specification-side description
of the needle list; the theorems relate both eval paths of
`_expr_affix_eval` to it. -/
def renderedNeedleList (fold : List Nat → List Nat) (ignore_case : Bool) :
    FxObject → Option (List (List Nat))
  | .str s => (obj_format fold ignore_case (.str s)).map (fun v => [v])
  | .list elems => mapMOpt (obj_format fold ignore_case) elems
  | _ => none

/-- Result of `_expr_affix_eval`: the returned object (`none` = NULL), the
needles that were handed to the process function in order, and how many
needle-expression evaluations happened during the call. -/
structure AffixOutcome where
  result : Option FxObject
  tested : List (List Nat)
  needleEvals : Nat
deriving DecidableEq

/-- The cached-needle loop of `_expr_affix_eval` (func-str.c:272-283):
`for (i = 0; i < len && !matches; i++)`, fetching each needle through
`_string_with_cache_get_string_value` and bailing out (`goto exit` with a
NULL result, first component `none`) if that fails. -/
def affix_eval_cached_loop (fold : List Nat → List Nat) (ignore_case : Bool)
    (kind : AffixKind) (haystack : List Nat) :
    List StringWithCache → Bool → List (List Nat) → Nat →
    Option Bool × List (List Nat) × Nat
  | [], found, tested, evals => (some found, tested, evals)
  | c :: rest, found, tested, evals =>
    if found then (some found, tested, evals)
    else
      match string_with_cache_get_string_value fold ignore_case c with
      | none => (none, tested, evals)
      | some (s, k) =>
        affix_eval_cached_loop fold ignore_case kind haystack rest
          (affix_process kind haystack s) (tested ++ [s]) (evals + k)

/-- The runtime-needle loop of `_expr_affix_eval` (func-str.c:289-296). -/
def affix_eval_runtime_loop (kind : AffixKind) (haystack : List Nat) :
    List (List Nat) → Bool → List (List Nat) → Bool × List (List Nat)
  | [], found, tested => (found, tested)
  | n :: rest, found, tested =>
    if found then (found, tested)
    else affix_eval_runtime_loop kind haystack rest
      (affix_process kind haystack n) (tested ++ [n])

/-- `_expr_affix_eval` (func-str.c:256-304): format the haystack; if the
cache array is non-empty walk it (re-rendering each needle, since
`str_value` is never filled), otherwise evaluate the needle expression
(counted as one needle-expression evaluation) and walk the rendered list.
A NULL haystack, needle-fetch failure or NULL needle list leaves `result`
NULL. -/
def affix_eval (fold : List Nat → List Nat) (a : AffixExpr)
    (cached : List StringWithCache) : AffixOutcome :=
  match expr_format fold a.ignore_case a.haystackRes with
  | none => ⟨none, [], 0⟩
  | some haystack =>
    if cached.length ≠ 0 then
      match affix_eval_cached_loop fold a.ignore_case a.kind haystack cached false [] 0 with
      | (none, tested, evals) => ⟨none, tested, evals⟩
      | (some found, tested, evals) => ⟨some (.boolean found), tested, evals⟩
    else
      match expr_affix_eval_needle fold a.ignore_case a.needle with
      | none => ⟨none, [], 1⟩
      | some needles =>
        let r := affix_eval_runtime_loop a.kind haystack needles false []
        ⟨some (.boolean r.1), r.2, 1⟩

/-- A concrete stand-in for `g_utf8_casefold` used by witnesses and
counterexamples: ASCII letters fold to lower case, other bytes pass
through (this matches `g_utf8_casefold` on ASCII input; the theorems never
depend on the fold's behaviour elsewhere). -/
def asciiCasefold (s : List Nat) : List Nat :=
  s.map (fun b => if 65 ≤ b ∧ b ≤ 90 then b + 32 else b)

/-! ## regexp_search match storing (expr-regexp-search.c) -/

/-- `g_snprintf(buf, _, "%u", n)`: the decimal digits of `n` as bytes. -/
def natDecimalBytes (n : Nat) : List Nat :=
  if h : n < 10 then [48 + n]
  else natDecimalBytes (n / 10) ++ [48 + n % 10]
decreasing_by exact Nat.div_lt_self (by omega) (by omega)

/-- `filterx_string_new(state->lhs_str + begin_index, end_index - begin_index)`:
the bytes of the subject from `b` (inclusive) to `e` (exclusive). -/
def matchSubstring (subject : List Nat) (b e : Nat) : List Nat :=
  (subject.drop b).take (e - b)

/-- The PCRE2 ovector as the store functions read it: one entry per group,
`none` for an unmatched group (`PCRE2_UNSET`, which the code detects as a
negative index), `some (b, e)` for a group matched at byte range `[b, e)`. -/
abbrev Ovector := List (Option (Nat × Nat))

/-- Loop of `_store_matches_to_list` (expr-regexp-search.c:62-80): group 0
is skipped when `num_matches > 1` and `keep_zero` is unset; unmatched
groups are skipped; every other group appends its substring.
`filterx_list_append` on the freshly created list container cannot fail, so
the error return is not modelled. -/
def store_matches_to_list_go (subject : List Nat) (keep_zero : Bool) (num : Nat) :
    Nat → Ovector → List (List Nat)
  | _, [] => []
  | i, m :: rest =>
    if num > 1 ∧ i = 0 ∧ ¬keep_zero then
      store_matches_to_list_go subject keep_zero num (i + 1) rest
    else
      match m with
      | none => store_matches_to_list_go subject keep_zero num (i + 1) rest
      | some (b, e) =>
        matchSubstring subject b e :: store_matches_to_list_go subject keep_zero num (i + 1) rest

/-- `_store_matches_to_list` (expr-regexp-search.c:56-83); `num_matches` is
the ovector count. -/
def store_matches_to_list (subject : List Nat) (keep_zero : Bool) (ov : Ovector) :
    List (List Nat) :=
  store_matches_to_list_go subject keep_zero ov.length 0 ov

/-- Modelled from the spec: a FilterX dict object restricted to the
string-keyed, string-valued entries `regexp_search` produces (the dict
implementation is not part of the provided sources).  Kept as an
association list in insertion order. -/
abbrev FxDict := List (List Nat × List Nat)

/-- Modelled from the spec: `filterx_object_set_subscript` on a dict —
replace the value of an existing key or append a new entry. -/
def dict_set : FxDict → List Nat → List Nat → FxDict
  | [], k, v => [(k, v)]
  | (k', v') :: rest, k, v =>
    if k' = k then (k, v) :: rest else (k', v') :: dict_set rest k v

/-- Modelled from the spec: `filterx_object_get_subscript` on a dict. -/
def dict_get : FxDict → List Nat → Option (List Nat)
  | [], _ => none
  | (k', v') :: rest, k => if k' = k then some v' else dict_get rest k

/-- Modelled from the spec: `filterx_object_unset_key` on a dict. -/
def dict_unset : FxDict → List Nat → FxDict
  | [], _ => []
  | (k', v') :: rest, k => if k' = k then rest else (k', v') :: dict_unset rest k

/-- First loop of `_store_matches_to_dict` (expr-regexp-search.c:93-117):
store every kept, matched group under its decimal index key. -/
def store_matches_to_dict_num (subject : List Nat) (keep_zero : Bool) (num : Nat) :
    Nat → Ovector → FxDict → FxDict
  | _, [], d => d
  | i, m :: rest, d =>
    if num > 1 ∧ i = 0 ∧ ¬keep_zero then
      store_matches_to_dict_num subject keep_zero num (i + 1) rest d
    else
      match m with
      | none => store_matches_to_dict_num subject keep_zero num (i + 1) rest d
      | some (b, e) =>
        store_matches_to_dict_num subject keep_zero num (i + 1) rest
          (dict_set d (natDecimalBytes i) (matchSubstring subject b e))

/-- Second loop of `_store_matches_to_dict` (expr-regexp-search.c:127-154):
for each PCRE name-table entry `(n, name)` whose group matched, move the
value from the decimal key of `n` to `name` (set first, then unset the
decimal key).  Reading past the ovector is modelled as an unmatched group;
a missing decimal key would make `set_subscript` store a NULL value, which
fails (`none`). -/
def store_matches_to_dict_rename (ov : Ovector) :
    List (Nat × List Nat) → FxDict → Option FxDict
  | [], d => some d
  | (n, name) :: rest, d =>
    match ov.getD n none with
    | none => store_matches_to_dict_rename ov rest d
    | some _ =>
      match dict_get d (natDecimalBytes n) with
      | none => none
      | some v =>
        store_matches_to_dict_rename ov rest (dict_unset (dict_set d name v) (natDecimalBytes n))

/-- `_store_matches_to_dict` (expr-regexp-search.c:85-157): the numbered
loop into an empty fillable, then the rename loop over the name table. -/
def store_matches_to_dict (subject : List Nat) (keep_zero : Bool) (ov : Ovector)
    (nametable : List (Nat × List Nat)) : Option FxDict :=
  store_matches_to_dict_rename ov nametable
    (store_matches_to_dict_num subject keep_zero ov.length 0 ov [])

/-! ## Expression init/deinit lifecycle (C8) -/

/-- Observable lifecycle events while a node initialises its children:
`inited i` = child `i`'s `filterx_expr_init` returned TRUE, `deinited i` =
`filterx_expr_deinit` was called on child `i`.  A failing child init has no
net effect of its own. -/
inductive InitEvent where
  | inited (i : Nat)
  | deinited (i : Nat)
deriving DecidableEq

/-- Loop of `_init` in expr-compound.c:157-169: children are initialised in
order; when child `i` fails, children `0..i-1` are deinit-ed by the inner
loop `for (j = 0; j < i; j++)` — in forward order — and FALSE is
returned. -/
def filterx_compound_init_go : List Bool → Nat → List InitEvent → Bool × List InitEvent
  | [], _, tr => (true, tr)
  | ok :: rest, i, tr =>
    if ok then filterx_compound_init_go rest (i + 1) (tr ++ [.inited i])
    else (false, tr ++ (List.range i).map .deinited)

/-- `_init` (expr-compound.c:152-178); the child list is abstracted to the
success/failure of each child's init.  The statistics registration after a
successful loop has no child-visible effect. -/
def filterx_compound_init (oks : List Bool) : Bool × List InitEvent :=
  filterx_compound_init_go oks 0 []

/-- `filterx_binary_op_init_method` (filterx-expr.c:192-211): `lhs` (child
0) then `rhs` (child 1); a failure returns FALSE immediately — an
already-initialised `lhs` is NOT deinit-ed when `rhs` fails. -/
def filterx_binary_op_init (lhsOk rhsOk : Bool) : Bool × List InitEvent :=
  if !lhsOk then (false, [])
  else if !rhsOk then (false, [.inited 0])
  else (true, [.inited 0, .inited 1])

/-- Init behaviour of one `FilterXLiteralGeneratorElem`: whether the key
expression's and the value expression's init succeed. -/
structure ElemInit where
  keyOk : Bool
  valueOk : Bool
deriving DecidableEq

/-- `_literal_generator_elem_init` (expr-literal-generator.c:47-60): key
then value; if the value fails the key is deinit-ed again, so a failing
element has no net effect. -/
def literal_generator_elem_init (e : ElemInit) : Bool :=
  e.keyOk && e.valueOk

/-- Loop of `_literal_generator_init` (expr-literal-generator.c:170-183):
elements are initialised in order; on a failure the elements before the
failing one are deinit-ed walking the list from its head — forward
order. -/
def literal_generator_init_go : List ElemInit → Nat → List InitEvent → Bool × List InitEvent
  | [], _, tr => (true, tr)
  | e :: rest, i, tr =>
    if literal_generator_elem_init e then
      literal_generator_init_go rest (i + 1) (tr ++ [.inited i])
    else (false, tr ++ (List.range i).map .deinited)

/-- `_literal_generator_init` (expr-literal-generator.c:165-186). -/
def literal_generator_init (elems : List ElemInit) : Bool × List InitEvent :=
  literal_generator_init_go elems 0 []

/-- How many times child `i` was (successfully) initialised in a trace. -/
def initedCount (tr : List InitEvent) (i : Nat) : Nat :=
  (tr.filter (fun e => e == .inited i)).length

/-- How many times child `i` was deinit-ed in a trace. -/
def deinitedCount (tr : List InitEvent) (i : Nat) : Nat :=
  (tr.filter (fun e => e == .deinited i)).length

/-! ## TLS transport read/write (transport-tls.c) -/

/-- Linux errno values used by this code. -/
def EAGAIN : Nat := 11

/-- Linux `EINTR`. -/
def EINTR : Nat := 4

/-- Linux `ECONNRESET`. -/
def ECONNRESET : Nat := 104

/-- Linux `EPIPE`. -/
def EPIPE : Nat := 32

/-- GLib poll condition bits. -/
def G_IO_IN : Nat := 1

/-- GLib `G_IO_OUT`. -/
def G_IO_OUT : Nat := 4

/-- OpenSSL `SSL_get_error` outcomes distinguished by this code. -/
inductive SslError where
  | wantRead
  | wantWrite
  | zeroReturn
  | syscall
  | other
deriving DecidableEq

/-- Behaviour of a single `SSL_shutdown` call: its return code, the
`SSL_get_error` classification consulted when it is negative, and the
`errno` the underlying syscall left behind. -/
structure ShutdownSpec where
  rc : Int
  err : SslError
  errnoLeft : Nat
deriving DecidableEq

/-- The transport state the TLS claims observe: the advised poll condition
(`self->super.super.cond`), the C `errno`, the `sending_shutdown` flag, and
an instrumentation counter of `SSL_shutdown` invocations. -/
structure TlsState where
  cond : Nat
  errno : Nat
  sending_shutdown : Bool
  shutdown_calls : Nat
deriving DecidableEq

/-- `_is_shutdown_sent` (transport-tls.c:135-139). -/
def is_shutdown_sent (rc : Int) : Bool :=
  rc ≥ 0

/-- `log_transport_tls_send_shutdown` plus `_handle_shutdown_error`
(transport-tls.c:141-185). -/
def log_transport_tls_send_shutdown (sp : ShutdownSpec) (st : TlsState) : Int × TlsState :=
  let st1 := { st with sending_shutdown := true, shutdown_calls := st.shutdown_calls + 1 }
  if is_shutdown_sent sp.rc then (sp.rc, { st1 with sending_shutdown := false })
  else
    match sp.err with
    | .wantRead => (sp.rc, { st1 with cond := G_IO_IN, errno := EAGAIN })
    | .wantWrite => (sp.rc, { st1 with cond := G_IO_OUT, errno := EAGAIN })
    | .syscall => (sp.rc, { st1 with errno := sp.errnoLeft, sending_shutdown := false })
    | _ => (sp.rc, { st1 with errno := ECONNRESET, sending_shutdown := false })

/-- Behaviour of one `SSL_read`/`SSL_write` call: either it transferred
`n` bytes (`n ≥ 1`; the C checks `rc <= 0` resp. `rc < 0`), or it failed
with the given `SSL_get_error` classification while the underlying syscalls
left `errnoLeft` in `errno`. -/
inductive SslIoResult where
  | ok (n : Nat)
  | fail (e : SslError) (errnoLeft : Nat)
deriving DecidableEq

/-- The `do { rc = SSL_read(...); ... } while (rc == -1 && errno == EINTR)`
loop of `log_transport_tls_read_method` (transport-tls.c:219-259),
consuming one `SslIoResult` per `SSL_read` call (`none` if the supplied
list of call behaviours runs out).  `SSL_ERROR_ZERO_RETURN` replies with
`log_transport_tls_send_shutdown`; `SSL_ERROR_SYSCALL` returns 0 when
`errno == 0` and -1 otherwise; the default case is the `tls_error` path
(-1 with `ECONNRESET`).  A positive return clears the poll condition. -/
def tls_read_loop (sp : ShutdownSpec) : List SslIoResult → TlsState → Option (Int × TlsState)
  | [], _ => none
  | r :: rest, st =>
    let step : Int × TlsState :=
      match r with
      | .ok n => ((n : Int), st)
      | .fail e el =>
        let st1 := { st with errno := el }
        match e with
        | .wantRead => (-1, { st1 with errno := EAGAIN })
        | .wantWrite => (-1, { st1 with cond := G_IO_OUT, errno := EAGAIN })
        | .zeroReturn =>
          let s := log_transport_tls_send_shutdown sp st1
          (if s.1 ≥ 0 then 0 else -1, s.2)
        | .syscall => (if el = 0 then 0 else -1, st1)
        | .other => (-1, { st1 with errno := ECONNRESET })
    if step.1 = -1 ∧ step.2.errno = EINTR then tls_read_loop sp rest step.2
    else some (if step.1 > 0 then (step.1, { step.2 with cond := 0 }) else step)

/-- `log_transport_tls_read_method` (transport-tls.c:187-270): a pending
shutdown is continued first; otherwise the poll condition is set to
`G_IO_IN` and the read loop runs.  (The aux-data/peer-certificate block
only fills aux data and is not modelled.) -/
def log_transport_tls_read (sp : ShutdownSpec) (reads : List SslIoResult)
    (st : TlsState) : Option (Int × TlsState) :=
  if st.sending_shutdown then
    let s := log_transport_tls_send_shutdown sp st
    some (if s.1 ≥ 0 then 0 else -1, s.2)
  else
    tls_read_loop sp reads { st with cond := G_IO_IN }

/-- `log_transport_tls_write_method` (transport-tls.c:272-333): set the
poll condition to `G_IO_OUT`, run one `SSL_write`; on `SSL_ERROR_SYSCALL`
with `errno == 0` remap to -1/`ECONNRESET`; the default case is the
`tls_error` path (-1 with `EPIPE`); a non-negative return clears the poll
condition. -/
def log_transport_tls_write (w : SslIoResult) (st : TlsState) : Int × TlsState :=
  let st0 := { st with cond := G_IO_OUT }
  match w with
  | .ok n => ((n : Int), { st0 with cond := 0 })
  | .fail e el =>
    let st1 := { st0 with errno := el }
    match e with
    | .wantRead => (-1, { st1 with cond := G_IO_IN, errno := EAGAIN })
    | .wantWrite => (-1, { st1 with errno := EAGAIN })
    | .syscall => if el = 0 then (-1, { st1 with errno := ECONNRESET }) else (-1, st1)
    | _ => (-1, { st1 with errno := EPIPE })

/-! ## FilterX variables (src/unnamed/part_000 = filterx-variable.h) -/

/-- `FilterXVariableType` (part_000:32-37). -/
inductive FilterXVariableType where
  | message_tied
  | floating
  | declared_floating
deriving DecidableEq

/-- `FilterXVariable` (part_000:64-77): handle, `assigned` bit, variable
type, generation counter and owned value (`none` = NULL = unset). -/
structure FilterXVariable where
  handle : Nat
  assigned : Bool
  variable_type : FilterXVariableType
  generation : Nat
  value : Option FxObject
deriving DecidableEq

/-- `filterx_variable_set_value` (part_000:114-121): replace the value,
record whether this was an assignment, stamp the generation. -/
def filterx_variable_set_value (v : FilterXVariable) (new_value : Option FxObject)
    (assignment : Bool) (generation : Nat) : FilterXVariable :=
  { v with value := new_value, assigned := assignment, generation := generation }

/-- `filterx_variable_unset_value` (part_000:123-127):
`filterx_variable_set_value(v, NULL, TRUE, generation)`. -/
def filterx_variable_unset_value (v : FilterXVariable) (generation : Nat) :
    FilterXVariable :=
  filterx_variable_set_value v none true generation

/-- `filterx_variable_is_set` (part_000:129-133): `value != NULL`. -/
def filterx_variable_is_set (v : FilterXVariable) : Bool :=
  v.value.isSome

/-- `filterx_variable_is_assigned` (part_000:141-145). -/
def filterx_variable_is_assigned (v : FilterXVariable) : Bool :=
  v.assigned

/-- The error-stack entries contributed by the children themselves when a
list of children is evaluated in order. -/
def childErrs (cs : List ChildSpec) : List FxError :=
  (cs.map (fun c => c.errors.map (fun m => ⟨m, none⟩))).flatten

/-! ## Theorems -/

/-- One loop step of `_eval_exprs` when no control modifier is pending and
the child evaluates successfully. -/
theorem evalExprsGo_cons_success (c : ChildSpec) (rest : List ChildSpec) (i : Nat)
    (res : Option FxObject) (rel : Bool) (st : EvalState) (ev : List Nat)
    (hmod : ¬(st.modifier = .fxcDrop ∨ st.modifier = .fxcDone))
    (v : FxObject) (hres : c.result = some v) (hsucc : evalExprSuccess c v = true) :
    evalExprsGo (c :: rest) i res rel st ev
      = evalExprsGo rest (i + 1) (some v) false (childApply c st) (ev ++ [i]) := by
  simp only [evalExprsGo]
  rw [if_neg hmod, hres]
  simp [hsucc]

/-- One loop step of `_eval_exprs` when no control modifier is pending and
the child fails (NULL result, or falsy without `ignore_falsy_result`): the
loop aborts with FALSE leaving the child's result in `*result`. -/
theorem evalExprsGo_cons_fail (c : ChildSpec) (rest : List ChildSpec) (i : Nat)
    (res : Option FxObject) (rel : Bool) (st : EvalState) (ev : List Nat)
    (hmod : ¬(st.modifier = .fxcDrop ∨ st.modifier = .fxcDone))
    (hfail : ¬c.result.map (fun v => evalExprSuccess c v) = some true) :
    evalExprsGo (c :: rest) i res rel st ev
      = ⟨false, c.result, false, childApply c st, ev ++ [i]⟩ := by
  simp only [evalExprsGo]
  rw [if_neg hmod]
  match hres : c.result with
  | none => simp
  | some v =>
    rw [hres] at hfail
    simp only [Option.map_some'] at hfail
    have hs : evalExprSuccess c v = false := by
      cases h : evalExprSuccess c v
      · rfl
      · exact absurd (by rw [h]) hfail
    simp [hs]

/-- Running `_eval_exprs` over children that all succeed and leave the
modifier untouched: the loop runs through and `*result` ends as the last
child's result (or the incoming value for an empty suffix). -/
theorem evalExprsGo_all_success (cs : List ChildSpec) :
    ∀ (i : Nat) (res : Option FxObject) (rel : Bool) (st : EvalState) (ev : List Nat),
    st.modifier = .fxcNone →
    (∀ c ∈ cs, c.modifier = none) →
    (∀ c ∈ cs, c.result.map (fun v => evalExprSuccess c v) = some true) →
    (evalExprsGo cs i res rel st ev).ranThrough = true ∧
    (evalExprsGo cs i res rel st ev).result =
      (match cs.getLast? with
       | none => res
       | some clast => clast.result) := by
  induction cs with
  | nil => intro i res rel st ev _ _ _; exact ⟨rfl, rfl⟩
  | cons c rest ih =>
    intro i res rel st ev hmod hcm hcs
    have hcres := hcs c (by simp)
    match hres : c.result with
    | none => rw [hres] at hcres; simp at hcres
    | some v =>
      rw [hres] at hcres
      simp only [Option.map_some', Option.some.injEq] at hcres
      have hstep := evalExprsGo_cons_success c rest i res rel st ev
        (by rw [hmod]; simp) v hres hcres
      rw [hstep]
      have ih' := ih (i + 1) (some v) false (childApply c st) (ev ++ [i])
        (by simp [childApply, hcm c (by simp), hmod])
        (fun c' hc' => hcm c' (by simp [hc']))
        (fun c' hc' => hcs c' (by simp [hc']))
      refine ⟨ih'.1, ?_⟩
      rw [ih'.2]
      cases rest with
      | nil => simp [hres]
      | cons c2 rest' =>
        rw [List.getLast?_cons_cons]
        cases hl : (c2 :: rest').getLast? with
        | none => simp at hl
        | some clast => rfl

/-- Running `_eval_exprs` over a successful prefix followed by a failing
child: the loop aborts at the failing child with its result in `*result`,
having evaluated exactly the prefix and the failing child, accumulated
their errors, and left the modifier as the failing child set it. -/
theorem evalExprsGo_prefix_fail (pre : List ChildSpec) :
    ∀ (ck : ChildSpec) (rest : List ChildSpec) (i : Nat) (res : Option FxObject)
      (rel : Bool) (st : EvalState) (ev : List Nat),
    st.modifier = .fxcNone →
    (∀ c ∈ pre, c.modifier = none) →
    (∀ c ∈ pre, c.result.map (fun v => evalExprSuccess c v) = some true) →
    ¬ck.result.map (fun v => evalExprSuccess ck v) = some true →
    evalExprsGo (pre ++ ck :: rest) i res rel st ev =
      ⟨false, ck.result, false,
       ⟨ck.modifier.getD .fxcNone, st.errors ++ childErrs (pre ++ [ck])⟩,
       ev ++ List.range' i (pre.length + 1)⟩ := by
  induction pre with
  | nil =>
    intro ck rest i res rel st ev hmod _ _ hfail
    rw [List.nil_append,
      evalExprsGo_cons_fail ck rest i res rel st ev (by rw [hmod]; simp) hfail]
    simp [childApply, childErrs, hmod]
  | cons c pre' ih =>
    intro ck rest i res rel st ev hmod hcm hcs hfail
    have hcres := hcs c (by simp)
    match hres : c.result with
    | none => rw [hres] at hcres; simp at hcres
    | some v =>
      rw [hres] at hcres
      simp only [Option.map_some', Option.some.injEq] at hcres
      rw [List.cons_append,
        evalExprsGo_cons_success c (pre' ++ ck :: rest) i res rel st ev
          (by rw [hmod]; simp) v hres hcres,
        ih ck rest (i + 1) (some v) false (childApply c st) (ev ++ [i])
          (by simp [childApply, hcm c (by simp), hmod])
          (fun c' hc' => hcm c' (by simp [hc']))
          (fun c' hc' => hcs c' (by simp [hc']))
          hfail]
      simp [childApply, childErrs, List.range'_succ]

/-- C1: a compound expression whose children all evaluate to truthy values
and set no control modifier returns the last child's result when
`return_value_of_last_expr` is set and a last result exists, and a fresh
boolean TRUE otherwise; an empty child list returns boolean TRUE. -/
theorem compound_all_truthy_returns_last_or_true (rv : Bool) (children : List ChildSpec)
    (hmod : ∀ c ∈ children, c.modifier = none)
    (htru : ∀ c ∈ children, c.result.map fxTruthy = some true) :
    (evalCompound rv children ⟨.fxcNone, []⟩).result =
      match children.getLast? with
      | none => some (.boolean true)
      | some clast => if rv then clast.result else some (.boolean true) := by
  have hsucc : ∀ c ∈ children, c.result.map (fun v => evalExprSuccess c v) = some true := by
    intro c hc
    have h := htru c hc
    match hr : c.result with
    | none => rw [hr] at h; simp at h
    | some v =>
      rw [hr] at h
      simp only [Option.map_some', Option.some.injEq] at h ⊢
      simp [evalExprSuccess, h]
  have h := evalExprsGo_all_success children 0 none false ⟨.fxcNone, []⟩ [] rfl hmod hsucc
  have hx : evalExprs children ⟨.fxcNone, []⟩ = evalExprsGo children 0 none false ⟨.fxcNone, []⟩ [] := rfl
  rw [evalCompound, hx]
  rw [h.1]
  simp only [if_true]
  cases hl : children.getLast? with
  | none =>
    rw [hl] at h
    rw [h.2]
  | some clast =>
    rw [hl] at h
    rw [h.2]
    have hcl := htru clast (List.mem_of_getLast?_eq_some hl)
    match hr : clast.result with
    | none => rw [hr] at hcl; simp at hcl
    | some v =>
      cases rv with
      | true => simp [hr]
      | false => simp [hr]

/-- Witness for `compound_all_truthy_returns_last_or_true`: a two-child
statement expression returns the second child's (truthy) result. -/
theorem compound_all_truthy_returns_last_or_true_witness :
    (evalCompound true
        [⟨false, none, [], some (.int 5)⟩, ⟨true, none, [], some (.str [97])⟩]
        ⟨.fxcNone, []⟩).result = some (.str [97]) :=
  (compound_all_truthy_returns_last_or_true true
    [⟨false, none, [], some (.int 5)⟩, ⟨true, none, [], some (.str [97])⟩]
    (by decide) (by decide)).trans (by decide)

/-- C2 (amended): when the children before `ck` all succeed without
touching the control modifier and `ck` fails — its eval yields NULL, or a
falsy value while `ignore_falsy_result` is unset — the compound returns
NULL and exactly children `0..k` were evaluated; the
"bailing out due to a falsy expr" error carrying the falsy value is pushed
only in the falsy case, while in the NULL case the stack gains nothing
beyond the children's own errors (expr-compound.c:117 pushes only
`if (result)`). -/
theorem compound_failing_child_bails (rv : Bool) (es : List FxError)
    (pre rest : List ChildSpec) (ck : ChildSpec)
    (hmodpre : ∀ c ∈ pre, c.modifier = none)
    (hpre : ∀ c ∈ pre, c.result.map (fun v => evalExprSuccess c v) = some true)
    (hfail : ¬ck.result.map (fun v => evalExprSuccess ck v) = some true) :
    (evalCompound rv (pre ++ ck :: rest) ⟨.fxcNone, es⟩).result = none ∧
    (evalCompound rv (pre ++ ck :: rest) ⟨.fxcNone, es⟩).evaluated
      = List.range (pre.length + 1) ∧
    (evalCompound rv (pre ++ ck :: rest) ⟨.fxcNone, es⟩).st.errors =
      es ++ childErrs (pre ++ [ck]) ++
        (match ck.result with
         | none => []
         | some v => [⟨bailMsg, some v⟩]) := by
  have h := evalExprsGo_prefix_fail pre ck rest 0 none false ⟨.fxcNone, es⟩ []
    rfl hmodpre hpre hfail
  have hx : evalExprs (pre ++ ck :: rest) ⟨.fxcNone, es⟩
      = evalExprsGo (pre ++ ck :: rest) 0 none false ⟨.fxcNone, es⟩ [] := rfl
  rw [evalCompound, hx, h]
  simp only [List.nil_append, ← List.range_eq_range']
  match hr : ck.result with
  | none => exact ⟨rfl, rfl, by simp⟩
  | some v => exact ⟨rfl, rfl, by simp⟩

/-- Witness for `compound_failing_child_bails`: a truthy child, then a
falsy child (which also pushes an error of its own), then a child that is
never reached. -/
theorem compound_failing_child_bails_witness :
    (evalCompound false
        [⟨false, none, [], some (.int 1)⟩, ⟨false, none, ["own error"], some (.boolean false)⟩,
         ⟨false, none, [], some (.int 9)⟩] ⟨.fxcNone, []⟩).result = none ∧
    (evalCompound false
        [⟨false, none, [], some (.int 1)⟩, ⟨false, none, ["own error"], some (.boolean false)⟩,
         ⟨false, none, [], some (.int 9)⟩] ⟨.fxcNone, []⟩).evaluated = [0, 1] ∧
    (evalCompound false
        [⟨false, none, [], some (.int 1)⟩, ⟨false, none, ["own error"], some (.boolean false)⟩,
         ⟨false, none, [], some (.int 9)⟩] ⟨.fxcNone, []⟩).st.errors
      = [⟨"own error", none⟩, ⟨bailMsg, some (.boolean false)⟩] := by
  have h := compound_failing_child_bails false []
    [⟨false, none, [], some (.int 1)⟩] [⟨false, none, [], some (.int 9)⟩]
    ⟨false, none, ["own error"], some (.boolean false)⟩
    (by decide) (by decide) (by decide)
  exact ⟨h.1, h.2.1.trans (by decide), h.2.2.trans (by decide)⟩

/-- C10: unsetting a FilterX variable nulls its value — so
`filterx_variable_is_set` becomes false — while setting, not clearing, the
`assigned` flag: unset counts as an assignment
(`filterx_variable_set_value(v, NULL, TRUE, generation)`). -/
theorem variable_unset_is_assigned (v : FilterXVariable) (g : Nat) :
    filterx_variable_is_set (filterx_variable_unset_value v g) = false ∧
    filterx_variable_is_assigned (filterx_variable_unset_value v g) = true := by
  exact ⟨rfl, rfl⟩

/-- C3 (failing input): a compound with `return_value_of_last_expr` whose
first child evaluates to the integer 42 and installs `FXC_DROP`.
`_eval_exprs` unrefs `*result` at the top of the next iteration without
resetting the pointer, observes the modifier and returns TRUE, so
`_eval_compound` hands back the first child's already-released object
(`resultReleased = true`, a use-after-free) instead of the boolean TRUE
the spec prescribes.  The second child is correctly skipped. -/
theorem compound_drop_returns_released_result :
    evalCompound true
      [⟨false, some .fxcDrop, [], some (.int 42)⟩, ⟨false, none, [], some (.boolean true)⟩]
      ⟨.fxcNone, []⟩
      = ⟨some (.int 42), true, ⟨.fxcDrop, []⟩, [0]⟩ := by decide

/-- C2 (counterexample): when a child's own evaluation fails (yields NULL),
`_eval_compound` returns NULL but pushes nothing — the
"bailing out due to a falsy expr" error is pushed only `if (result)`
(expr-compound.c:117), i.e. only for a non-NULL falsy result.  Here the
final error stack holds exactly the child's own error and no bail
entry, refuting the claim that the bail error is pushed in the NULL
case. -/
theorem compound_null_child_no_bail_error :
    evalCompound false [⟨false, none, ["template eval failed"], none⟩] ⟨.fxcNone, []⟩
      = ⟨none, false, ⟨.fxcNone, [⟨"template eval failed", none⟩]⟩, [0]⟩ := by decide

/-- C6 (failing input): a literal needle `"abc"`.
`_string_with_cache_fill_cache` renders the literal at init time but
discards the result — `str_value` is never assigned, so the cache entry
still carries `none` after init — and consequently
`_string_with_cache_get_string_value` re-runs `_expr_format` on the
literal needle expression on every call: one needle-expression evaluation
per eval instead of the claimed zero. -/
theorem literal_needle_cache_never_filled :
    affix_init_needle asciiCasefold false (.single ⟨true, some (.str [97, 98, 99])⟩)
      = some [⟨true, some (.str [97, 98, 99]), none⟩] ∧
    (affix_eval asciiCasefold
        ⟨false, some (.str [97, 98, 99, 100]),
         .single ⟨true, some (.str [97, 98, 99])⟩, .startswith⟩
        [⟨true, some (.str [97, 98, 99]), none⟩]).needleEvals = 1 := by decide

/-- C5 (amended): a needle longer than the haystack yields false and an
empty needle yields true for all three predicates; but with `ignorecase`
the case-fold step fails only when the rendered string is longer than
`G_MAXSSIZE` — the byte content (UTF-8 validity) is never checked, since
`g_utf8_casefold` cannot report failure. -/
theorem affix_edge_cases :
    (∀ (kind : AffixKind) (h n : List Nat),
       n.length > h.length → affix_process kind h n = false) ∧
    (∀ (kind : AffixKind) (h : List Nat), affix_process kind h [] = true) ∧
    (∀ (fold : List Nat → List Nat) (s : List Nat),
       s.length ≤ G_MAXSSIZE → do_casefold fold s = some (fold s)) := by
  refine ⟨?_, ?_, ?_⟩
  · intro kind h n hlen
    cases kind <;>
      simp [affix_process, function_startswith_process, function_endswith_process,
        function_includes_process, hlen]
  · intro kind h
    cases kind
    · simp [affix_process, function_startswith_process]
    · simp [affix_process, function_endswith_process]
    · cases h <;> simp [affix_process, function_includes_process, g_strstr_len]
  · intro fold s hs
    rw [do_casefold, if_neg (by omega)]

/-- Witness for `affix_edge_cases` at concrete inputs. -/
theorem affix_edge_cases_witness :
    affix_process .endswith [1, 2] [1, 2, 3] = false ∧
    affix_process .includes [5, 6] [] = true ∧
    do_casefold asciiCasefold [255] = some [255] :=
  ⟨affix_edge_cases.1 .endswith [1, 2] [1, 2, 3] (by decide),
   affix_edge_cases.2.1 .includes [5, 6],
   (affix_edge_cases.2.2 asciiCasefold [255] (by decide)).trans (by decide)⟩

/-- C5 (counterexample): a `startswith` call whose haystack is the single
byte 0xFF — a byte that can never occur in valid UTF-8 — with `ignorecase`
enabled.  The call does not fail: `_do_casefold` succeeds on any input of
length at most `G_MAXSSIZE`, so evaluation completes and returns a boolean,
refuting "a non-UTF-8 haystack with ignorecase enabled makes the call
fail". -/
theorem ignorecase_invalid_utf8_call_succeeds :
    (affix_eval asciiCasefold
        ⟨true, some (.str [255]), .single ⟨false, some (.str [97])⟩, .startswith⟩ []).result
      = some (.boolean false) := by decide

/-- C9 (amended): on a peer close-notify during a read
(`SSL_ERROR_ZERO_RETURN`) the transport replies with its own
`SSL_shutdown` (the shutdown-call counter increments) and, when that
succeeds, reports EOF; a write hitting `SSL_ERROR_SYSCALL` with an
unresolved errno (0) is remapped to -1/`ECONNRESET`; but a read hitting
`SSL_ERROR_SYSCALL` with an unresolved errno returns 0 (treated as EOF)
with errno left at 0 — the connection-reset remap applies only to the
write path (transport-tls.c:247 vs 307-311). -/
theorem tls_shutdown_reply_and_syscall_remap (sp : ShutdownSpec) (st : TlsState)
    (rest : List SslIoResult) (el : Nat)
    (hsend : st.sending_shutdown = false) (hrc : sp.rc ≥ 0) :
    log_transport_tls_read sp (.fail .zeroReturn el :: rest) st
      = some (0, ⟨G_IO_IN, el, false, st.shutdown_calls + 1⟩) ∧
    log_transport_tls_read sp (.fail .syscall 0 :: rest) st
      = some (0, ⟨G_IO_IN, 0, false, st.shutdown_calls⟩) ∧
    log_transport_tls_write (.fail .syscall 0) st
      = (-1, ⟨G_IO_OUT, ECONNRESET, st.sending_shutdown, st.shutdown_calls⟩) := by
  refine ⟨?_, ?_, ?_⟩
  · simp [log_transport_tls_read, hsend, tls_read_loop, log_transport_tls_send_shutdown,
      is_shutdown_sent, hrc, EINTR]
  · simp [log_transport_tls_read, hsend, tls_read_loop, EINTR]
  · simp [log_transport_tls_write]

/-- Witness for `tls_shutdown_reply_and_syscall_remap` at a concrete
state. -/
theorem tls_shutdown_reply_and_syscall_remap_witness :
    log_transport_tls_read ⟨0, .other, 0⟩ [.fail .zeroReturn 5] ⟨0, 0, false, 0⟩
      = some (0, ⟨G_IO_IN, 5, false, 1⟩) ∧
    log_transport_tls_read ⟨0, .other, 0⟩ [.fail .syscall 0] ⟨0, 0, false, 0⟩
      = some (0, ⟨G_IO_IN, 0, false, 0⟩) ∧
    log_transport_tls_write (.fail .syscall 0) ⟨0, 0, false, 0⟩
      = (-1, ⟨G_IO_OUT, ECONNRESET, false, 0⟩) :=
  tls_shutdown_reply_and_syscall_remap ⟨0, .other, 0⟩ ⟨0, 0, false, 0⟩ [] 5 rfl (by decide)

/-- C9 (counterexample): a read whose single `SSL_read` fails with
`SSL_ERROR_SYSCALL` and errno still 0 returns 0 with errno 0 — not the
claimed -1 with `ECONNRESET` (the remap exists only in the write
method). -/
theorem tls_read_syscall_errno_zero_returns_eof :
    log_transport_tls_read ⟨0, .other, 0⟩ [.fail .syscall 0] ⟨4, 77, false, 0⟩
      = some (0, ⟨G_IO_IN, 0, false, 0⟩) := by decide

/-- C8 (counterexample): `filterx_binary_op_init_method` with a failing
`rhs` returns FALSE leaving `lhs` initialised (no deinit event), so the
children are not all returned to their pre-init state; and on a compound
whose third child fails, the first two children are deinit-ed in forward
order (`deinited 0` before `deinited 1`), not in reverse. -/
theorem init_failure_not_reverse_atomic :
    filterx_binary_op_init true false = (false, [.inited 0]) ∧
    filterx_compound_init [true, true, false]
      = (false, [.inited 0, .inited 1, .deinited 0, .deinited 1]) ∧
    initedCount [InitEvent.inited 0] 0 = 1 ∧
    deinitedCount [InitEvent.inited 0] 0 = 0 := by decide

/-- Unfolding the compound-init loop along an all-successful prefix up to
the first failing child: every prefix child is initialised, then deinit-ed
in forward order. -/
theorem filterx_compound_init_go_fail (pre : List Bool) :
    ∀ (rest : List Bool) (i : Nat) (tr : List InitEvent),
    (∀ b ∈ pre, b = true) →
    filterx_compound_init_go (pre ++ false :: rest) i tr
      = (false, (tr ++ (List.range' i pre.length).map .inited)
          ++ (List.range (i + pre.length)).map .deinited) := by
  induction pre with
  | nil =>
    intro rest i tr _
    simp [filterx_compound_init_go]
  | cons b pre' ih =>
    intro rest i tr hp
    have hb : b = true := hp b (by simp)
    subst hb
    rw [List.cons_append]
    simp only [filterx_compound_init_go, if_true]
    rw [ih rest (i + 1) (tr ++ [InitEvent.inited i]) (fun b hb => hp b (by simp [hb]))]
    have harith : i + 1 + pre'.length = i + (pre'.length + 1) := by omega
    simp [List.range'_succ, harith]

/-- The literal-generator analogue of `filterx_compound_init_go_fail`. -/
theorem literal_generator_init_go_fail (elpre : List ElemInit) :
    ∀ (e0 : ElemInit) (elrest : List ElemInit) (i : Nat) (tr : List InitEvent),
    (∀ e ∈ elpre, literal_generator_elem_init e = true) →
    literal_generator_elem_init e0 = false →
    literal_generator_init_go (elpre ++ e0 :: elrest) i tr
      = (false, (tr ++ (List.range' i elpre.length).map .inited)
          ++ (List.range (i + elpre.length)).map .deinited) := by
  induction elpre with
  | nil =>
    intro e0 elrest i tr _ he0
    simp [literal_generator_init_go, he0]
  | cons e elpre' ih =>
    intro e0 elrest i tr hp he0
    rw [List.cons_append]
    simp only [literal_generator_init_go, hp e (by simp), if_true]
    rw [ih e0 elrest (i + 1) (tr ++ [InitEvent.inited i]) (fun e he => hp e (by simp [he])) he0]
    have harith : i + 1 + elpre'.length = i + (elpre'.length + 1) := by omega
    simp [List.range'_succ, harith]

/-- C8 (amended): when the k-th child's init fails, the node's init fails;
for compound and literal-generator nodes the already-initialised children
`0..k-1` are deinit-ed exactly once each in forward (first-to-last) order,
restoring them to their pre-init state; for binary operators a failing
`rhs` init leaves `lhs` initialised (only an `lhs` failure is
effect-free). -/
theorem init_failure_forward_deinit
    (pre rest : List Bool) (elpre elrest : List ElemInit) (e0 : ElemInit)
    (hp : ∀ b ∈ pre, b = true)
    (he : ∀ e ∈ elpre, literal_generator_elem_init e = true)
    (he0 : literal_generator_elem_init e0 = false) :
    filterx_compound_init (pre ++ false :: rest)
      = (false, (List.range pre.length).map .inited
          ++ (List.range pre.length).map .deinited) ∧
    literal_generator_init (elpre ++ e0 :: elrest)
      = (false, (List.range elpre.length).map .inited
          ++ (List.range elpre.length).map .deinited) ∧
    (∀ l r : Bool, filterx_binary_op_init l r
      = if l then
          (if r then (true, [.inited 0, .inited 1]) else (false, [.inited 0]))
        else (false, [])) := by
  refine ⟨?_, ?_, ?_⟩
  · rw [filterx_compound_init, filterx_compound_init_go_fail pre rest 0 [] hp]
    simp [List.range_eq_range']
  · rw [literal_generator_init, literal_generator_init_go_fail elpre e0 elrest 0 [] he he0]
    simp [List.range_eq_range']
  · intro l r
    cases l <;> cases r <;> rfl

/-- Witness for `init_failure_forward_deinit` on two-child nodes. -/
theorem init_failure_forward_deinit_witness :
    filterx_compound_init [true, false] = (false, [.inited 0, .deinited 0]) ∧
    literal_generator_init [⟨true, true⟩, ⟨false, true⟩] = (false, [.inited 0, .deinited 0]) ∧
    filterx_binary_op_init true false = (false, [.inited 0]) := by
  have h := init_failure_forward_deinit [true] [] [⟨true, true⟩] [] ⟨false, true⟩
    (by decide) (by decide) (by decide)
  exact ⟨h.1.trans (by decide), h.2.1.trans (by decide), (h.2.2 true false).trans (by decide)⟩

/-- `natDecimalBytes` never renders to the empty byte string. -/
theorem natDecimalBytes_ne_nil (n : Nat) : natDecimalBytes n ≠ [] := by
  rw [natDecimalBytes]
  split <;> simp

/-- The decimal key of 0 is the single byte `'0'`. -/
theorem natDecimalBytes_zero : natDecimalBytes 0 = [48] := by
  rw [natDecimalBytes]
  rfl

/-- Decimal keys of non-zero group numbers differ from the key of group
0. -/
theorem natDecimalBytes_ne_key0 (i : Nat) (hi : i ≠ 0) :
    natDecimalBytes i ≠ natDecimalBytes 0 := by
  rw [natDecimalBytes_zero]
  rw [natDecimalBytes]
  split
  · intro hc
    simp only [List.cons.injEq, and_true] at hc
    omega
  · intro hc
    have hlen := congrArg List.length hc
    simp only [List.length_append, List.length_cons, List.length_nil] at hlen
    have hne := natDecimalBytes_ne_nil (i / 10)
    cases hd : natDecimalBytes (i / 10) with
    | nil => exact hne hd
    | cons x xs => rw [hd] at hlen; simp at hlen

/-- `dict_get` after `dict_set` of the same key. -/
theorem dict_get_set_self (d : FxDict) (k v : List Nat) :
    dict_get (dict_set d k v) k = some v := by
  induction d with
  | nil => simp [dict_set, dict_get]
  | cons p rest ih =>
    by_cases h : p.1 = k
    · simp [dict_set, dict_get, h]
    · simp [dict_set, dict_get, h, ih]

/-- `dict_get` after `dict_set` of a different key. -/
theorem dict_get_set_ne (d : FxDict) (k k' v : List Nat) (h : k' ≠ k) :
    dict_get (dict_set d k' v) k = dict_get d k := by
  induction d with
  | nil => simp [dict_set, dict_get, h]
  | cons p rest ih =>
    by_cases hp : p.1 = k'
    · simp [dict_set, dict_get, hp, h]
    · simp only [dict_set, hp, if_false]
      by_cases hk : p.1 = k
      · simp [dict_get, hk]
      · simp [dict_get, hk, ih]

/-- `dict_get` after `dict_unset` of a different key. -/
theorem dict_get_unset_ne (d : FxDict) (k k' : List Nat) (h : k' ≠ k) :
    dict_get (dict_unset d k') k = dict_get d k := by
  induction d with
  | nil => rfl
  | cons p rest ih =>
    obtain ⟨pk, pv⟩ := p
    by_cases hp : pk = k'
    · have hpk : pk ≠ k := fun hc => h (hp ▸ hc)
      simp [dict_unset, dict_get, hp, hpk, h]
    · by_cases hk : pk = k
      · have hk2 : ¬k = k' := fun hc => h hc.symm
        simp [dict_unset, dict_get, hp, hk, hk2]
      · simp [dict_unset, dict_get, hp, hk, ih]

/-- One step of the `_store_matches_to_list` loop. -/
theorem store_matches_to_list_go_cons (subject : List Nat) (kz : Bool) (num i : Nat)
    (m : Option (Nat × Nat)) (rest : Ovector) :
    store_matches_to_list_go subject kz num i (m :: rest)
      = if num > 1 ∧ i = 0 ∧ ¬kz then
          store_matches_to_list_go subject kz num (i + 1) rest
        else
          match m with
          | none => store_matches_to_list_go subject kz num (i + 1) rest
          | some (b, e) =>
            matchSubstring subject b e :: store_matches_to_list_go subject kz num (i + 1) rest :=
  rfl

/-- One step of the numbered `_store_matches_to_dict` loop. -/
theorem store_matches_to_dict_num_cons (subject : List Nat) (kz : Bool) (num i : Nat)
    (m : Option (Nat × Nat)) (rest : Ovector) (d : FxDict) :
    store_matches_to_dict_num subject kz num i (m :: rest) d
      = if num > 1 ∧ i = 0 ∧ ¬kz then
          store_matches_to_dict_num subject kz num (i + 1) rest d
        else
          match m with
          | none => store_matches_to_dict_num subject kz num (i + 1) rest d
          | some (b, e) =>
            store_matches_to_dict_num subject kz num (i + 1) rest
              (dict_set d (natDecimalBytes i) (matchSubstring subject b e)) :=
  rfl

/-- Skipping step of the list store loop (group 0 elided). -/
theorem store_matches_to_list_go_skip (subject : List Nat) (kz : Bool) (num i : Nat)
    (m : Option (Nat × Nat)) (rest : Ovector) (hif : num > 1 ∧ i = 0 ∧ ¬kz) :
    store_matches_to_list_go subject kz num i (m :: rest)
      = store_matches_to_list_go subject kz num (i + 1) rest := by
  rw [store_matches_to_list_go_cons, if_pos hif]

/-- Unmatched-group step of the list store loop. -/
theorem store_matches_to_list_go_none (subject : List Nat) (kz : Bool) (num i : Nat)
    (rest : Ovector) (hif : ¬(num > 1 ∧ i = 0 ∧ ¬kz)) :
    store_matches_to_list_go subject kz num i (none :: rest)
      = store_matches_to_list_go subject kz num (i + 1) rest := by
  rw [store_matches_to_list_go_cons, if_neg hif]

/-- Matched-group step of the list store loop. -/
theorem store_matches_to_list_go_some (subject : List Nat) (kz : Bool) (num i b e : Nat)
    (rest : Ovector) (hif : ¬(num > 1 ∧ i = 0 ∧ ¬kz)) :
    store_matches_to_list_go subject kz num i (some (b, e) :: rest)
      = matchSubstring subject b e :: store_matches_to_list_go subject kz num (i + 1) rest := by
  rw [store_matches_to_list_go_cons, if_neg hif]

/-- Skipping step of the numbered dict store loop. -/
theorem store_matches_to_dict_num_skip (subject : List Nat) (kz : Bool) (num i : Nat)
    (m : Option (Nat × Nat)) (rest : Ovector) (d : FxDict) (hif : num > 1 ∧ i = 0 ∧ ¬kz) :
    store_matches_to_dict_num subject kz num i (m :: rest) d
      = store_matches_to_dict_num subject kz num (i + 1) rest d := by
  rw [store_matches_to_dict_num_cons, if_pos hif]

/-- Unmatched-group step of the numbered dict store loop. -/
theorem store_matches_to_dict_num_none (subject : List Nat) (kz : Bool) (num i : Nat)
    (rest : Ovector) (d : FxDict) (hif : ¬(num > 1 ∧ i = 0 ∧ ¬kz)) :
    store_matches_to_dict_num subject kz num i (none :: rest) d
      = store_matches_to_dict_num subject kz num (i + 1) rest d := by
  rw [store_matches_to_dict_num_cons, if_neg hif]

/-- Matched-group step of the numbered dict store loop. -/
theorem store_matches_to_dict_num_some (subject : List Nat) (kz : Bool) (num i b e : Nat)
    (rest : Ovector) (d : FxDict) (hif : ¬(num > 1 ∧ i = 0 ∧ ¬kz)) :
    store_matches_to_dict_num subject kz num i (some (b, e) :: rest) d
      = store_matches_to_dict_num subject kz num (i + 1) rest
          (dict_set d (natDecimalBytes i) (matchSubstring subject b e)) := by
  rw [store_matches_to_dict_num_cons, if_neg hif]

/-- The numbered store loop entered at any index `i ≥ 1` never touches the
key of group 0. -/
theorem store_matches_to_dict_num_get0_pos (subject : List Nat) (kz : Bool) (num : Nat) :
    ∀ (ov : Ovector) (i : Nat) (d : FxDict), i ≠ 0 →
    dict_get (store_matches_to_dict_num subject kz num i ov d) (natDecimalBytes 0)
      = dict_get d (natDecimalBytes 0) := by
  intro ov
  induction ov with
  | nil => intro i d _; rfl
  | cons m rest ih =>
    intro i d hi
    have hcond : ¬(num > 1 ∧ i = 0 ∧ ¬kz) := by
      intro hc; exact hi hc.2.1
    match m with
    | none =>
      rw [store_matches_to_dict_num_none subject kz num i rest d hcond]
      exact ih (i + 1) d (by omega)
    | some (b, e) =>
      rw [store_matches_to_dict_num_some subject kz num i b e rest d hcond,
        ih (i + 1) _ (by omega),
        dict_get_set_ne d _ _ _ (natDecimalBytes_ne_key0 i hi)]

/-- The positive-index store loop of `_store_matches_to_list`: with the
group-0 special case out of reach it keeps exactly the matched groups'
substrings, in order. -/
theorem store_matches_to_list_go_pos (subject : List Nat) (kz : Bool) (num : Nat) :
    ∀ (ov : Ovector) (i : Nat), i ≠ 0 →
    store_matches_to_list_go subject kz num i ov
      = ov.filterMap (fun m => m.map (fun p => matchSubstring subject p.1 p.2)) := by
  intro ov
  induction ov with
  | nil => intro i _; rfl
  | cons m rest ih =>
    intro i hi
    have hcond : ¬(num > 1 ∧ i = 0 ∧ ¬kz) := by
      intro hc; exact hi hc.2.1
    match m with
    | none =>
      rw [store_matches_to_list_go_none subject kz num i rest hcond,
        ih (i + 1) (by omega)]
      simp [List.filterMap_cons]
    | some (b, e) =>
      rw [store_matches_to_list_go_some subject kz num i b e rest hcond,
        ih (i + 1) (by omega)]
      simp [List.filterMap_cons]

/-- The rename loop keeps the entry of group 0 intact as long as the name
table names no group 0 and uses no name equal to group 0's decimal key. -/
theorem store_matches_to_dict_rename_get0 (ov : Ovector) :
    ∀ (nt : List (Nat × List Nat)) (d d' : FxDict),
    (∀ p ∈ nt, p.1 ≠ 0 ∧ p.2 ≠ natDecimalBytes 0) →
    store_matches_to_dict_rename ov nt d = some d' →
    dict_get d' (natDecimalBytes 0) = dict_get d (natDecimalBytes 0) := by
  intro nt
  induction nt with
  | nil =>
    intro d d' _ hd
    simp only [store_matches_to_dict_rename, Option.some.injEq] at hd
    rw [hd]
  | cons p rest ih =>
    intro d d' hp hd
    match hg : ov.getD p.1 none with
    | none =>
      rw [store_matches_to_dict_rename, hg] at hd
      exact ih d d' (fun q hq => hp q (by simp [hq])) hd
    | some g =>
      rw [store_matches_to_dict_rename, hg] at hd
      match hv : dict_get d (natDecimalBytes p.1) with
      | none => rw [hv] at hd; exact absurd hd (by simp)
      | some v =>
        rw [hv] at hd
        rw [ih _ d' (fun q hq => hp q (by simp [hq])) hd,
          dict_get_unset_ne _ _ _ (natDecimalBytes_ne_key0 p.1 (hp p (by simp)).1),
          dict_get_set_ne _ _ _ _ (hp p (by simp)).2]

/-- C7 (amended): group 0 is stored iff it matched and is not elided; it
is elided exactly when more than one ovector group exists and `keep_zero`
is unset — in particular a pattern with no capture groups (a single
ovector entry) keeps group 0 even without `keep_zero`.  Groups `1..n` are
stored whenever they matched.  The dict-mode statement holds whenever the
rename pass succeeds, for name tables that name only groups `>= 1` with
names distinct from group 0's key (PCRE guarantees both). -/
theorem regexp_search_group0_elision (subject : List Nat) (kz : Bool) (ov : Ovector)
    (nt : List (Nat × List Nat))
    (hnt : ∀ p ∈ nt, p.1 ≠ 0 ∧ p.2 ≠ natDecimalBytes 0) :
    store_matches_to_list subject kz ov =
      (if kz ∨ ¬ov.length > 1 then
        ((ov.getD 0 none).map (fun p => matchSubstring subject p.1 p.2)).toList
       else [])
      ++ (ov.drop 1).filterMap (fun m => m.map (fun p => matchSubstring subject p.1 p.2)) ∧
    (∀ d', store_matches_to_dict subject kz ov nt = some d' →
      dict_get d' (natDecimalBytes 0) =
        if kz ∨ ¬ov.length > 1 then
          (ov.getD 0 none).map (fun p => matchSubstring subject p.1 p.2)
        else none) := by
  constructor
  · match ov with
    | [] => simp [store_matches_to_list, store_matches_to_list_go]
    | m :: rest =>
      have hunf : store_matches_to_list subject kz (m :: rest)
          = store_matches_to_list_go subject kz (m :: rest).length 0 (m :: rest) := rfl
      rw [hunf]
      by_cases hskip : (m :: rest).length > 1 ∧ ¬kz
      · have hif : ((m :: rest).length > 1 ∧ 0 = 0 ∧ ¬kz) := ⟨hskip.1, rfl, hskip.2⟩
        rw [store_matches_to_list_go_skip subject kz _ 0 m rest hif,
          store_matches_to_list_go_pos subject kz _ rest 1 (by omega)]
        have hnor : ¬(kz ∨ ¬(m :: rest).length > 1) := by
          intro hc; rcases hc with hc | hc
          · exact hskip.2 hc
          · exact hc hskip.1
        rw [if_neg hnor]
        simp
      · have hif : ¬((m :: rest).length > 1 ∧ 0 = 0 ∧ ¬kz) := by
          intro hc; exact hskip ⟨hc.1, hc.2.2⟩
        have hor : kz ∨ ¬(m :: rest).length > 1 := by
          by_cases hkz : kz
          · exact Or.inl hkz
          · refine Or.inr ?_
            intro hlen
            exact hskip ⟨hlen, by simp [hkz]⟩
        match m with
        | none =>
          rw [store_matches_to_list_go_none subject kz _ 0 rest hif,
            store_matches_to_list_go_pos subject kz _ rest 1 (by omega)]
          rw [if_pos hor]
          simp
        | some (b, e) =>
          rw [store_matches_to_list_go_some subject kz _ 0 b e rest hif,
            store_matches_to_list_go_pos subject kz _ rest 1 (by omega)]
          rw [if_pos hor]
          simp
  · intro d' hd
    rw [store_matches_to_dict] at hd
    rw [store_matches_to_dict_rename_get0 ov nt _ d' hnt hd]
    match ov with
    | [] => simp [store_matches_to_dict_num, dict_get]
    | m :: rest =>
      by_cases hskip : (m :: rest).length > 1 ∧ ¬kz
      · have hif : ((m :: rest).length > 1 ∧ 0 = 0 ∧ ¬kz) := ⟨hskip.1, rfl, hskip.2⟩
        rw [store_matches_to_dict_num_skip subject kz _ 0 m rest [] hif,
          store_matches_to_dict_num_get0_pos subject kz _ rest 1 [] (by omega)]
        have hnor : ¬(kz ∨ ¬(m :: rest).length > 1) := by
          intro hc; rcases hc with hc | hc
          · exact hskip.2 hc
          · exact hc hskip.1
        rw [if_neg hnor]
        rfl
      · have hif : ¬((m :: rest).length > 1 ∧ 0 = 0 ∧ ¬kz) := by
          intro hc; exact hskip ⟨hc.1, hc.2.2⟩
        have hor : kz ∨ ¬(m :: rest).length > 1 := by
          by_cases hkz : kz
          · exact Or.inl hkz
          · refine Or.inr ?_
            intro hlen
            exact hskip ⟨hlen, by simp [hkz]⟩
        match m with
        | none =>
          rw [store_matches_to_dict_num_none subject kz _ 0 rest [] hif,
            store_matches_to_dict_num_get0_pos subject kz _ rest 1 [] (by omega)]
          rw [if_pos hor]
          rfl
        | some (b, e) =>
          rw [store_matches_to_dict_num_some subject kz _ 0 b e rest [] hif,
            store_matches_to_dict_num_get0_pos subject kz _ rest 1 _ (by omega)]
          rw [if_pos hor, dict_get_set_self]
          rfl

/-- The decimal key of 1. -/
theorem natDecimalBytes_one : natDecimalBytes 1 = [49] := by
  rw [natDecimalBytes]
  rfl

/-- C7 (counterexample): a pattern with no capture groups (the ovector
holds only group 0, matching the whole subject `"abc"`) and `keep_zero`
unset: group 0 appears in both the list container and the dict container
(under key `"0"`), because the elision condition `num_matches > 1` fails —
refuting "group 0 does not appear in the result". -/
theorem regexp_search_group0_present_without_captures :
    store_matches_to_list [97, 98, 99] false [some (0, 3)] = [[97, 98, 99]] ∧
    store_matches_to_dict [97, 98, 99] false [some (0, 3)] [] = some [([48], [97, 98, 99])] := by
  constructor
  · decide
  · have h2 : store_matches_to_dict [97, 98, 99] false [some (0, 3)] []
        = some [(natDecimalBytes 0, matchSubstring [97, 98, 99] 0 3)] := rfl
    rw [h2, natDecimalBytes_zero]
    rfl

/-- Witness for `regexp_search_group0_elision`: `keep_zero` set, group 0
matched, group 1 unmatched. -/
theorem regexp_search_group0_elision_witness :
    store_matches_to_list [97, 98] true [some (0, 2), none] = [[97, 98]] ∧
    dict_get [([48], [97, 98])] (natDecimalBytes 0) = some [97, 98] := by
  have h := regexp_search_group0_elision [97, 98] true [some (0, 2), none] [] (by simp)
  constructor
  · exact h.1.trans (by decide)
  · have h1 : store_matches_to_dict [97, 98] true [some (0, 2), none] []
        = some [([48], [97, 98])] := by
      have h2 : store_matches_to_dict [97, 98] true [some (0, 2), none] []
          = some [(natDecimalBytes 0, matchSubstring [97, 98] 0 2)] := rfl
      rw [h2, natDecimalBytes_zero]
      rfl
    exact (h.2 [([48], [97, 98])] h1).trans (by decide)

/-- `mapMOpt` preserves length. -/
theorem mapMOpt_length {α β : Type} (f : α → Option β) :
    ∀ (l : List α) (l' : List β), mapMOpt f l = some l' → l'.length = l.length := by
  intro l
  induction l with
  | nil =>
    intro l' h
    simp only [mapMOpt, Option.some.injEq] at h
    rw [← h]
    rfl
  | cons a rest ih =>
    intro l' h
    cases ha : f a with
    | none => simp [mapMOpt, ha] at h
    | some b =>
      cases hr : mapMOpt f rest with
      | none => simp [mapMOpt, ha, hr] at h
      | some bs =>
        simp only [mapMOpt, ha, hr, Option.some.injEq] at h
        rw [← h]
        simp [ih bs hr]

/-- `expr_format` on an evaluated object is `obj_format`. -/
theorem expr_format_some (fold : List Nat → List Nat) (ic : Bool) (obj : FxObject) :
    expr_format fold ic (some obj) = obj_format fold ic obj := rfl

/-- Formatting a list object fails (`repr` on containers is outside the
model). -/
theorem obj_format_list_none (fold : List Nat → List Nat) (ic : Bool) (l : List FxObject) :
    obj_format fold ic (.list l) = none := rfl

/-- A successful `_string_with_cache_new` always hands back the freshly
zero-allocated entry — in particular with `str_value = none`. -/
theorem string_with_cache_new_eq (fold : List Nat → List Nat) (ic : Bool)
    (e : NeedleElem) (c : StringWithCache)
    (h : string_with_cache_new fold ic e = some c) :
    c = ⟨e.isLiteral, e.evalRes, none⟩ := by
  simp only [string_with_cache_new, string_with_cache_fill_cache] at h
  split at h
  · exact (Option.some.inj h).symm
  · split at h
    · exact absurd h (by simp)
    · exact (Option.some.inj h).symm

/-- A successful `_string_with_cache_new` on a literal needle implies the
literal rendered successfully at init time. -/
theorem string_with_cache_new_lit_format (fold : List Nat → List Nat) (ic : Bool)
    (e : NeedleElem) (c : StringWithCache) (hl : e.isLiteral = true)
    (h : string_with_cache_new fold ic e = some c) :
    ∃ s, expr_format fold ic e.evalRes = some s := by
  simp only [string_with_cache_new, string_with_cache_fill_cache, hl,
    Bool.not_true, Bool.false_eq_true, if_false] at h
  split at h
  · exact absurd h (by simp)
  · rename_i s hs
    exact ⟨s, hs⟩

/-- The runtime needle loop short-circuits once a match was found. -/
theorem affix_eval_runtime_loop_true (kind : AffixKind) (h : List Nat) :
    ∀ (ns t : List (List Nat)), affix_eval_runtime_loop kind h ns true t = (true, t) := by
  intro ns t
  cases ns <;> simp [affix_eval_runtime_loop]

/-- The runtime needle loop applies the process function to the needles in
order: the outcome is "some needle matches", and the tested trace is the
needle list cut just after the first match. -/
theorem affix_eval_runtime_loop_spec (kind : AffixKind) (h : List Nat) :
    ∀ (ns t : List (List Nat)),
    affix_eval_runtime_loop kind h ns false t
      = (ns.any (affix_process kind h),
         t ++ ns.take (ns.findIdx (affix_process kind h) + 1)) := by
  intro ns
  induction ns with
  | nil => intro t; simp [affix_eval_runtime_loop]
  | cons n rest ih =>
    intro t
    simp only [affix_eval_runtime_loop, Bool.false_eq_true, if_false]
    cases hp : affix_process kind h n with
    | true =>
      rw [affix_eval_runtime_loop_true]
      simp [List.any_cons, hp, List.findIdx_cons]
    | false =>
      rw [ih (t ++ [n])]
      simp [List.any_cons, hp, List.findIdx_cons, List.take_succ_cons]

/-- The cached needle loop short-circuits once a match was found. -/
theorem affix_eval_cached_loop_true (fold : List Nat → List Nat) (ic : Bool)
    (kind : AffixKind) (h : List Nat) :
    ∀ (cs : List StringWithCache) (t : List (List Nat)) (e : Nat),
    affix_eval_cached_loop fold ic kind h cs true t e = (some true, t, e) := by
  intro cs t e
  cases cs <;> simp [affix_eval_cached_loop]

/-- The cached needle loop, when every entry fetches its needle string,
computes the same outcome as the runtime loop on the fetched strings. -/
theorem affix_eval_cached_loop_spec (fold : List Nat → List Nat) (ic : Bool)
    (kind : AffixKind) (h : List Nat)
    (cs : List StringWithCache) (ns : List (List Nat))
    (hF : List.Forall₂
      (fun c n => ∃ k, string_with_cache_get_string_value fold ic c = some (n, k)) cs ns) :
    ∀ (t : List (List Nat)) (e : Nat), ∃ e',
    affix_eval_cached_loop fold ic kind h cs false t e
      = (some (ns.any (affix_process kind h)),
         t ++ ns.take (ns.findIdx (affix_process kind h) + 1), e') := by
  induction hF with
  | nil => intro t e; exact ⟨e, by simp [affix_eval_cached_loop]⟩
  | @cons c n cs' ns' hcn hrest ih =>
    intro t e
    obtain ⟨k, hk⟩ := hcn
    cases hp : affix_process kind h n with
    | true =>
      refine ⟨e + k, ?_⟩
      simp only [affix_eval_cached_loop, Bool.false_eq_true, if_false, hk]
      rw [hp, affix_eval_cached_loop_true]
      simp [List.any_cons, hp, List.findIdx_cons]
    | false =>
      obtain ⟨e', he'⟩ := ih (t ++ [n]) (e + k)
      refine ⟨e', ?_⟩
      simp only [affix_eval_cached_loop, Bool.false_eq_true, if_false, hk]
      rw [hp, he']
      simp [List.any_cons, hp, List.findIdx_cons, List.take_succ_cons]

/-- For a literal list generator needle: the cache entries built at init
fetch exactly the rendered element strings at eval time (each with one
needle-expression evaluation, since nothing was cached). -/
theorem listgen_cached_renders (fold : List Nat → List Nat) (ic : Bool) :
    ∀ (elems : List NeedleElem) (cached : List StringWithCache) (vs : List FxObject)
      (ns : List (List Nat)),
    mapMOpt (string_with_cache_new fold ic) elems = some cached →
    mapMOpt (fun e => e.evalRes) elems = some vs →
    mapMOpt (obj_format fold ic) vs = some ns →
    List.Forall₂
      (fun c n => ∃ k, string_with_cache_get_string_value fold ic c = some (n, k))
      cached ns := by
  intro elems
  induction elems with
  | nil =>
    intro cached vs ns h1 h2 h3
    simp only [mapMOpt, Option.some.injEq] at h1 h2
    rw [← h2] at h3
    simp only [mapMOpt, Option.some.injEq] at h3
    rw [← h1, ← h3]
    exact .nil
  | cons e0 rest ih =>
    intro cached vs ns h1 h2 h3
    cases hc : string_with_cache_new fold ic e0 with
    | none => simp [mapMOpt, hc] at h1
    | some c =>
      cases hcr : mapMOpt (string_with_cache_new fold ic) rest with
      | none => simp [mapMOpt, hc, hcr] at h1
      | some cs' =>
        cases hv : e0.evalRes with
        | none => simp [mapMOpt, hv] at h2
        | some v =>
          cases hvr : mapMOpt (fun e => e.evalRes) rest with
          | none => simp [mapMOpt, hv, hvr] at h2
          | some vs' =>
            simp only [mapMOpt, hc, hcr, Option.some.injEq] at h1
            simp only [mapMOpt, hv, hvr, Option.some.injEq] at h2
            rw [← h2] at h3
            cases hn : obj_format fold ic v with
            | none => simp [mapMOpt, hn] at h3
            | some n =>
              cases hnr : mapMOpt (obj_format fold ic) vs' with
              | none => simp [mapMOpt, hn, hnr] at h3
              | some ns' =>
                simp only [mapMOpt, hn, hnr, Option.some.injEq] at h3
                rw [← h1, ← h3]
                refine .cons ?_ (ih cs' vs' ns' hcr hvr hnr)
                refine ⟨1, ?_⟩
                rw [string_with_cache_new_eq fold ic e0 c hc]
                simp [string_with_cache_get_string_value, expr_format, hv, hn]

/-- The cached eval path of `_expr_affix_eval` under a non-empty cache
whose entries fetch the needle strings `ns`. -/
theorem affix_eval_cached_path (fold : List Nat → List Nat) (a : AffixExpr)
    (cached : List StringWithCache) (haystack : List Nat) (ns : List (List Nat))
    (hH : expr_format fold a.ignore_case a.haystackRes = some haystack)
    (hne : cached ≠ [])
    (hF : List.Forall₂
      (fun c n => ∃ k, string_with_cache_get_string_value fold a.ignore_case c = some (n, k))
      cached ns) :
    (affix_eval fold a cached).result
      = some (.boolean (ns.any (affix_process a.kind haystack))) ∧
    (affix_eval fold a cached).tested
      = ns.take (ns.findIdx (affix_process a.kind haystack) + 1) := by
  have hlen : cached.length ≠ 0 := by
    cases cached
    · exact absurd rfl hne
    · simp
  obtain ⟨e', he'⟩ := affix_eval_cached_loop_spec fold a.ignore_case a.kind haystack
    cached ns hF [] 0
  simp only [affix_eval, hH]
  rw [if_pos hlen, he']
  exact ⟨rfl, by simp⟩

/-- The runtime eval path of `_expr_affix_eval` with an empty cache and a
successfully built needle list. -/
theorem affix_eval_runtime_path (fold : List Nat → List Nat) (a : AffixExpr)
    (haystack : List Nat) (ns0 : List (List Nat))
    (hH : expr_format fold a.ignore_case a.haystackRes = some haystack)
    (hneedle : expr_affix_eval_needle fold a.ignore_case a.needle = some ns0) :
    (affix_eval fold a []).result
      = some (.boolean (ns0.any (affix_process a.kind haystack))) ∧
    (affix_eval fold a []).tested
      = ns0.take (ns0.findIdx (affix_process a.kind haystack) + 1) := by
  have hcond : ¬(([] : List StringWithCache).length ≠ 0) := by simp
  simp only [affix_eval, hH]
  rw [if_neg hcond, hneedle]
  simp [affix_eval_runtime_loop_spec]

/-- The runtime eval path when the needle list construction fails. -/
theorem affix_eval_runtime_path_fail (fold : List Nat → List Nat) (a : AffixExpr)
    (haystack : List Nat)
    (hH : expr_format fold a.ignore_case a.haystackRes = some haystack)
    (hneedle : expr_affix_eval_needle fold a.ignore_case a.needle = none) :
    affix_eval fold a [] = ⟨none, [], 1⟩ := by
  have hcond : ¬(([] : List StringWithCache).length ≠ 0) := by simp
  simp only [affix_eval, hH]
  rw [if_neg hcond, hneedle]

/-- C4 (amended): a call whose needle evaluates to a string or to a
non-empty list renders the needles and tests them in order with the
byte-wise predicate; the result is true iff some needle matches (the loops
stop at the first match: exactly the needles up to and including the first
matching one are tested), and false when none matches.  A needle that
evaluates to an EMPTY list, however, makes the evaluation fail (NULL
result, `_expr_affix_eval_needle` returns NULL at func-str.c:230-234),
rather than returning false. -/
theorem affix_needles_first_match (fold : List Nat → List Nat) (a : AffixExpr)
    (cached : List StringWithCache) (haystack : List Nat) (nv : FxObject)
    (ns : List (List Nat))
    (hinit : affix_init_needle fold a.ignore_case a.needle = some cached)
    (hH : expr_format fold a.ignore_case a.haystackRes = some haystack)
    (hN : needleEval a.needle = some nv)
    (hR : renderedNeedleList fold a.ignore_case nv = some ns) :
    (affix_eval fold a cached).result
      = (if ns.isEmpty then none
         else some (.boolean (ns.any (affix_process a.kind haystack)))) ∧
    (affix_eval fold a cached).tested
      = ns.take (ns.findIdx (affix_process a.kind haystack) + 1) := by
  obtain ⟨ic, hres, needle, kind⟩ := a
  cases needle with
  | single e =>
    simp only [needleEval] at hN
    by_cases hl : e.isLiteral
    · -- literal single needle: one cache entry, cached path
      simp only [affix_init_needle, hl, if_true] at hinit
      cases hc : string_with_cache_new fold ic e with
      | none => rw [hc] at hinit; exact absurd hinit (by simp)
      | some c =>
        rw [hc] at hinit
        simp only [Option.some.injEq] at hinit
        obtain ⟨s, hs⟩ := string_with_cache_new_lit_format fold ic e c hl hc
        rw [hN, expr_format_some] at hs
        match nv with
        | .list l => rw [obj_format_list_none] at hs; exact absurd hs (by simp)
        | .boolean _ => exact absurd hR (by simp [renderedNeedleList])
        | .int _ => exact absurd hR (by simp [renderedNeedleList])
        | .str s0 =>
          simp only [renderedNeedleList, hs, Option.map_some', Option.some.injEq] at hR
          have hF : List.Forall₂
              (fun c n => ∃ k,
                string_with_cache_get_string_value fold ic c = some (n, k)) cached [s] := by
            rw [← hinit, string_with_cache_new_eq fold ic e c hc]
            refine .cons ⟨1, ?_⟩ .nil
            simp [string_with_cache_get_string_value, hN, expr_format, hs]
          have h := affix_eval_cached_path fold ⟨ic, hres, .single e, kind⟩ cached
            haystack [s] hH (by rw [← hinit]; simp) hF
          rw [← hR]
          refine ⟨?_, h.2⟩
          rw [h.1]
          simp
    · -- non-literal single needle: empty cache, runtime path
      have hl' : e.isLiteral = false := by
        revert hl; cases e.isLiteral <;> simp
      simp only [affix_init_needle, hl', Bool.false_eq_true, if_false,
        Option.some.injEq] at hinit
      subst hinit
      match nv with
      | .boolean _ => exact absurd hR (by simp [renderedNeedleList])
      | .int _ => exact absurd hR (by simp [renderedNeedleList])
      | .str s0 =>
        cases hs : obj_format fold ic (.str s0) with
        | none => rw [renderedNeedleList, hs] at hR; exact absurd hR (by simp)
        | some s =>
          rw [renderedNeedleList, hs] at hR
          simp only [Option.map_some', Option.some.injEq] at hR
          have hneedle : expr_affix_eval_needle fold ic (.single e) = some [s] := by
            simp [expr_affix_eval_needle, needleEval, hN, hs]
          have h := affix_eval_runtime_path fold ⟨ic, hres, .single e, kind⟩
            haystack [s] hH hneedle
          rw [← hR]
          refine ⟨?_, h.2⟩
          rw [h.1]
          simp
      | .list elems =>
        simp only [renderedNeedleList] at hR
        cases helems : elems with
        | nil =>
          subst helems
          simp only [mapMOpt, Option.some.injEq] at hR
          have hneedle : expr_affix_eval_needle fold ic (.single e) = none := by
            simp [expr_affix_eval_needle, needleEval, hN]
          have h := affix_eval_runtime_path_fail fold ⟨ic, hres, .single e, kind⟩
            haystack hH hneedle
          rw [h, ← hR]
          exact ⟨rfl, rfl⟩
        | cons e0 rest =>
          subst helems
          have hneedle : expr_affix_eval_needle fold ic (.single e) = some ns := by
            simp [expr_affix_eval_needle, needleEval, hN, hR]
          have h := affix_eval_runtime_path fold ⟨ic, hres, .single e, kind⟩
            haystack ns hH hneedle
          have hnsne : ns.isEmpty = false := by
            have hlen := mapMOpt_length (obj_format fold ic) (e0 :: rest) ns hR
            cases ns
            · simp at hlen
            · rfl
          refine ⟨?_, h.2⟩
          rw [h.1, hnsne]
          rfl
  | listGen elems =>
    simp only [needleEval] at hN
    cases hvs : mapMOpt (fun (e : NeedleElem) => e.evalRes) elems with
    | none => rw [hvs] at hN; exact absurd hN (by simp)
    | some vs =>
      rw [hvs] at hN
      simp only [Option.map_some', Option.some.injEq] at hN
      subst hN
      simp only [renderedNeedleList] at hR
      simp only [affix_init_needle] at hinit
      cases helems : elems with
      | nil =>
        subst helems
        simp only [mapMOpt, Option.some.injEq] at hinit hvs
        subst hinit
        rw [← hvs] at hR
        simp only [mapMOpt, Option.some.injEq] at hR
        have hneedle : expr_affix_eval_needle fold ic (.listGen []) = none := by
          simp [expr_affix_eval_needle, needleEval, mapMOpt]
        have h := affix_eval_runtime_path_fail fold ⟨ic, hres, .listGen [], kind⟩
          haystack hH hneedle
        rw [h, ← hR]
        exact ⟨rfl, rfl⟩
      | cons e0 rest =>
        subst helems
        have hF := listgen_cached_renders fold ic (e0 :: rest) cached vs ns hinit hvs hR
        have hcne : cached ≠ [] := by
          have hlen := mapMOpt_length (string_with_cache_new fold ic) (e0 :: rest) cached hinit
          cases cached
          · simp at hlen
          · simp
        have h := affix_eval_cached_path fold ⟨ic, hres, .listGen (e0 :: rest), kind⟩
          cached haystack ns hH hcne hF
        have hnsne : ns.isEmpty = false := by
          have hlen1 := mapMOpt_length (fun (e : NeedleElem) => e.evalRes) (e0 :: rest) vs hvs
          have hlen2 := mapMOpt_length (obj_format fold ic) vs ns hR
          cases ns
          · rw [hlen1] at hlen2; simp at hlen2
          · rfl
        refine ⟨?_, h.2⟩
        rw [h.1, hnsne]
        rfl

/-- C4 (counterexample): an `includes` call whose needle is an empty
literal list.  Init leaves the cache empty, and at eval
`_expr_affix_eval_needle` hits the `len == 0` branch and returns NULL, so
the whole call fails (NULL result) — not the `false` the claim
prescribes for an empty needle list. -/
theorem affix_empty_needle_list_fails :
    affix_init_needle asciiCasefold false (.listGen []) = some [] ∧
    (affix_eval asciiCasefold ⟨false, some (.str [97]), .listGen [], .includes⟩ []).result
      = none := by decide

/-- Witness for `affix_needles_first_match`: `endswith("abc", ["x", "bc"])`
returns true, testing both needles (the first fails, the second
matches). -/
theorem affix_needles_first_match_witness :
    (affix_eval asciiCasefold
        ⟨false, some (.str [97, 98, 99]),
         .single ⟨false, some (.list [.str [120], .str [98, 99]])⟩, .endswith⟩ []).result
      = some (.boolean true) ∧
    (affix_eval asciiCasefold
        ⟨false, some (.str [97, 98, 99]),
         .single ⟨false, some (.list [.str [120], .str [98, 99]])⟩, .endswith⟩ []).tested
      = [[120], [98, 99]] := by
  have h := affix_needles_first_match asciiCasefold
    ⟨false, some (.str [97, 98, 99]),
     .single ⟨false, some (.list [.str [120], .str [98, 99]])⟩, .endswith⟩
    [] [97, 98, 99] (.list [.str [120], .str [98, 99]]) [[120], [98, 99]]
    (by decide) (by decide) (by decide) (by decide)
  exact ⟨h.1.trans (by decide), h.2.trans (by decide)⟩

end Axosyslog
